import Mathlib

/-!
# unstd: chained errors and ownership-polymorphic handles

A shallow embedding of `src/unstd.h` (namespace `unstd`):

* `Exception` (lines 14-91): an error value with an own message and an
  optional, exclusively owned parent error;
* `mptr` / `wmptr` (lines 158-297): handles over a plain pointer, a
  `std::shared_ptr` or a `std::weak_ptr`.

Conventions of the embedding.

* A plain pointer `T*` is an address, a natural number; `0` is `nullptr`.
* `std::string` is `String`; a `char const*` message is the `String` of its
  characters.  The C string read through `c_str()` is the part of the string
  before its first NUL character (`c_str`).
* `std::ostringstream` is the text written so far together with the
  formatting state that `operator<<` reads and that manipulators change.
* An owned `Exception*` (`m_parent`) is an `Option Exception`: `none` is
  `nullptr`, `some p` is a heap object holding `p` that only this error
  reaches.  `new` is assumed to succeed.
* `std::shared_ptr` / `std::weak_ptr` are library types.  They are embedded
  as a stored pointer and an optional control block, and the program state
  they act on is the table of use counts (`Heap`).
* A C++ `throw` is the `Except.error` result.
* Only code that can be instantiated is given a behaviour.  The member
  initialiser `m_wptr{nullptr}` (lines 162, 182, 187) is ill-formed, since
  `std::weak_ptr` has no constructor from `nullptr`: `wmptr()`,
  `wmptr(sptr<T>)`, `wmptr(T*)` and `mptr::operator wmptr<T>` (lines 272-276)
  cannot be called by any program.  `(s->*c)(t...)` (lines 315, 325, 335, 345)
  is ill-formed for a `std::shared_ptr` or an `mptr`, which have no
  `operator->*`: the `invoke_callback` overloads on `sptr`, `wptr`, `mptr`
  and `wmptr` cannot be called either.  None of these is embedded as an
  operation; the member values that the three `wmptr` constructors name are
  kept as states of `wmptr` only.
-/

namespace unstd

/-! ## Library model: C strings and `std::ostringstream` -/

/-- The C string read from `std::string::c_str()`: the characters before the
first NUL character, all of them when there is none. -/
def c_str (s : String) : String :=
  ⟨s.data.takeWhile (fun ch => ch != Char.ofNat 0)⟩

/-- A `std::ostringstream`: `str` is what `str()` returns, the characters
written so far; `state` is the formatting state of the stream (base, width,
fill, flags), of a type `φ` left open. -/
structure ostringstream (φ : Type) where
  str : String
  state : φ

/-- The insertion `target << a`.  `ins a st` is what `operator<<` does for
the argument `a` on a stream whose formatting state is `st`: the characters
it writes and the formatting state it leaves. -/
def ostringstream.write {α φ : Type} (ins : α → φ → String × φ) (target : ostringstream φ)
    (a : α) : ostringstream φ :=
  ⟨target.str ++ (ins a target.state).1, (ins a target.state).2⟩

/-- The fields of `struct Exception` (lines 17-18): `m_parent` is the owned
parent pointer (`none` for `nullptr`), `m_message` the own message. -/
inductive Exception where
  | mk (m_parent : Option Exception) (m_message : String)

namespace Exception

/-- Field `Exception* m_parent` (line 17). -/
def m_parent : Exception → Option Exception
  | mk p _ => p

/-- Field `std::string m_message` (line 18). -/
def m_message : Exception → String
  | mk _ m => m

/-- The single-argument `AppendMessage(target, T& t)` (lines 22-26) and the
recursive `AppendMessage(target, T t, K... k)` (lines 28-33): `target << t`,
then the rest of the pack into the same stream.  The pack is the first
argument and the rest; the result is the stream after the call. -/
def AppendMessage {α φ : Type} (ins : α → φ → String × φ) (target : ostringstream φ) :
    α → List α → ostringstream φ
  | t, [] => target.write ins t
  | t, k :: ks => AppendMessage ins (target.write ins t) k ks

/-- Copy constructor (line 45): `Exception(const Exception& e): m_message(e.m_message) {}`.
Only the message is copied; `m_parent` keeps its default member initialiser
`nullptr` (line 17). -/
def copy (e : Exception) : Exception :=
  mk none e.m_message

/-- Move constructor (line 46): the message is moved, `m_parent` stays
`nullptr`. -/
def moveCtor (e : Exception) : Exception :=
  mk none e.m_message

/-- Constructor from a pointer (line 48): `m_message(e->m_message)`. -/
def ofPointer (e : Exception) : Exception :=
  mk none e.m_message

/-- Constructor from a `std::string&&` (line 49): `m_message(message)`. -/
def ofString (message : String) : Exception :=
  mk none message

/-- Constructor from a `char const*` (line 50): `m_message(message)`. -/
def ofCStr (message : String) : Exception :=
  mk none message

/-- Wrap with parent (line 52):
`Exception(const Exception& parent, char const* message):
m_parent(new Exception(parent)), m_message(message) {}`.
The new parent object is made by the copy constructor. -/
def wrap (parent : Exception) (message : String) : Exception :=
  mk (some (copy parent)) message

/-- Variadic wrap with parent (lines 55-62): `m_parent(new Exception(parent))`,
then the arguments are streamed into the fresh `std::ostringstream s`, which
is empty and in the default formatting state `st₀`, and
`m_message = s.str()`. -/
def variadicWrap {α φ : Type} (ins : α → φ → String × φ) (st₀ : φ) (parent : Exception)
    (t : α) (ts : List α) : Exception :=
  mk (some (copy parent)) (AppendMessage ins ⟨"", st₀⟩ t ts).str

/-- Variadic constructor (lines 64-70): the arguments are streamed into the
fresh `std::ostringstream s`, which is empty and in the default formatting
state `st₀`, and `m_message = s.str()`; `m_parent` keeps its default
`nullptr`. -/
def variadic {α φ : Type} (ins : α → φ → String × φ) (st₀ : φ) (t : α) (ts : List α) :
    Exception :=
  mk none (AppendMessage ins ⟨"", st₀⟩ t ts).str

/-- `HasParent()` (line 74): `m_parent != nullptr`. -/
def HasParent (e : Exception) : Bool :=
  e.m_parent.isSome

/-- `Parent()` (line 75): returns `m_parent`. -/
def Parent (e : Exception) : Option Exception :=
  e.m_parent

/-- `Message()` (lines 76-86). -/
def Message (e : Exception) : String :=
  match e.m_parent with
  | none => e.m_message
  | some p => e.m_message ++ " " ++ p.m_message

/-- `what()` (line 90): `m_message.c_str()`, the C string of the own
message. -/
def what (e : Exception) : String :=
  c_str e.m_message

/-- The messages met by walking `Parent()` from an error until `nullptr`:
the error's own message first. -/
def chainMessages : Exception → List String
  | mk none m => [m]
  | mk (some p) m => m :: chainMessages p

/-- The number of `Parent()` steps from an error to the end of its chain. -/
def chainDepth : Exception → Nat
  | mk none _ => 0
  | mk (some p) _ => chainDepth p + 1

end Exception

/-! ## Library model: plain pointers, `std::shared_ptr`, `std::weak_ptr` -/

/-- A plain pointer `T*`: an address, `0` being `nullptr`. -/
abbrev Ptr := Nat

/-- The use count (number of live `shared_ptr` owners) of every control
block.  The object managed by control block `c` exists while `H c > 0`. -/
abbrev Heap := Nat → Nat

namespace Heap

/-- A heap in which no control block has an owner. -/
def empty : Heap := fun _ => 0

/-- `use_count()` of a control block reference; an empty reference has none. -/
def use_count (H : Heap) : Option Nat → Nat
  | none => 0
  | some c => H c

/-- One more `shared_ptr` owns the control block (a `shared_ptr` was copy
constructed).  Copying an empty `shared_ptr` changes nothing. -/
def retain (H : Heap) : Option Nat → Heap
  | none => H
  | some c => fun k => if k = c then H k + 1 else H k

/-- One `shared_ptr` owner of the control block was destroyed. -/
def release (H : Heap) : Option Nat → Heap
  | none => H
  | some c => fun k => if k = c then H k - 1 else H k

end Heap

/-- A `std::shared_ptr<T>` (`sptr<T>`, line 120): the stored pointer returned
by `get()` and the control block it shares ownership of (`none`: empty). -/
structure sptr where
  ptr : Ptr
  ctrl : Option Nat
  deriving DecidableEq, Repr

namespace sptr

/-- The empty `shared_ptr`, as made from `nullptr`. -/
def null : sptr := ⟨0, none⟩

/-- `shared_ptr::get()`. -/
def get (s : sptr) : Ptr := s.ptr

/-- `shared_ptr::operator bool`: `get() != nullptr`. -/
def toBool (s : sptr) : Bool := decide (s.ptr ≠ 0)

end sptr

/-- A `std::weak_ptr<T>` (`wptr<T>`, line 126): the stored pointer and the
control block it observes (`none`: empty). -/
structure wptr where
  ptr : Ptr
  ctrl : Option Nat
  deriving DecidableEq, Repr

namespace wptr

/-- The empty `weak_ptr`. -/
def null : wptr := ⟨0, none⟩

/-- A `weak_ptr` constructed from a `shared_ptr`: same stored pointer, same
control block, no ownership. -/
def ofSptr (s : sptr) : wptr := ⟨s.ptr, s.ctrl⟩

/-- `weak_ptr::expired()`: `use_count() == 0`. -/
def expired (w : wptr) (H : Heap) : Bool := decide (H.use_count w.ctrl = 0)

/-- `weak_ptr::lock()`: an empty `shared_ptr` when expired, otherwise a new
`shared_ptr` sharing ownership of the observed object. -/
def lock (w : wptr) (H : Heap) : sptr × Heap :=
  if w.expired H then (sptr.null, H) else (⟨w.ptr, w.ctrl⟩, H.retain w.ctrl)

end wptr

/-- `std::make_shared<T>` behind `shared<T>(prms...)` (lines 138-142): the
allocator picks the address `p` of the new object and a control block `c`,
whose only owner is the returned `shared_ptr`. -/
def shared (p : Ptr) (c : Nat) (H : Heap) : sptr × Heap :=
  (⟨p, some c⟩, fun k => if k = c then 1 else H k)

/-- Conversion of a pointer to a derived class into a pointer to one of its
bases, `(T*)p` with `std::is_base_of<T, K>` (line 244) and the converting
constructor `sptr<T>(const sptr<K>&)` (line 243): a null pointer stays null,
any other address moves by the offset `off` of the base subobject. -/
def static_upcast (off : Nat) (p : Ptr) : Ptr :=
  if p = 0 then 0 else p + off

/-- The discriminant of the specification's data model; the source keeps
no such field, it is read off the two fields of `mptr`. -/
inductive Mode where
  | Unset
  | Raw
  | Shared
  deriving DecidableEq, Repr

/-! ## `class mptr` (lines 211-297) -/

/-- The fields of `mptr<T>` (lines 219-220) with their default member
initialisers. -/
structure mptr where
  m_ptr : Ptr := 0
  m_sptr : sptr := sptr.null
  deriving DecidableEq, Repr

/-! ## `class wmptr` (lines 158-209) -/

/-- The fields of `wmptr<T>` (lines 162-164) with their default member
initialisers. -/
structure wmptr where
  m_wptr : wptr := wptr.null
  m_sptr : sptr := sptr.null
  m_ptr : Ptr := 0
  deriving DecidableEq, Repr

namespace mptr

/-- `mptr() = default` (line 223). -/
def default : mptr := {}

/-- `explicit mptr(sptr<T> sptr): m_sptr(sptr), m_ptr(sptr.get())`
(lines 232-234).  The member `m_sptr` is a copy of the argument, hence one
more owner; the by-value parameter is itself a copy that is destroyed on
return and leaves no trace in the count. -/
def ofSptr (s : sptr) (H : Heap) : mptr × Heap :=
  ({ m_sptr := s, m_ptr := s.get }, H.retain s.ctrl)

/-- `explicit mptr(T* ptr): m_sptr{nullptr}, m_ptr(ptr)` (lines 236-238). -/
def ofPtr (p : Ptr) : mptr :=
  { m_sptr := sptr.null, m_ptr := p }

/-- Upcast constructor (lines 241-244):
`m_sptr(m.m_sptr ? sptr<T>(m.m_sptr) : nullptr), m_ptr((T*)m.m_ptr)`. -/
def upcast (off : Nat) (m : mptr) (H : Heap) : mptr × Heap :=
  if m.m_sptr.toBool then
    ({ m_sptr := ⟨static_upcast off m.m_sptr.ptr, m.m_sptr.ctrl⟩,
       m_ptr := static_upcast off m.m_ptr }, H.retain m.m_sptr.ctrl)
  else
    ({ m_sptr := sptr.null, m_ptr := static_upcast off m.m_ptr }, H)

/-- `mptr(const mptr&) = default` (line 227): both members are copied, the
`shared_ptr` member gaining an owner. -/
def copy (h : mptr) (H : Heap) : mptr × Heap :=
  (h, H.retain h.m_sptr.ctrl)

/-- `mptr(mptr&&) = default` (line 226): returns the new handle and the
moved-from source.  The plain pointer is copied; the `shared_ptr` is moved,
which leaves the source's `m_sptr` empty and the use count as it was. -/
def move (h : mptr) : mptr × mptr :=
  (h, { m_ptr := h.m_ptr, m_sptr := sptr.null })

/-- `~mptr() = default` (line 225): the member `m_sptr` is destroyed. -/
def destroy (h : mptr) (H : Heap) : Heap :=
  H.release h.m_sptr.ctrl

/-- Destruction of several handles, one after the other. -/
def destroyAll (hs : List mptr) (H : Heap) : Heap :=
  hs.foldl (fun H' h => h.destroy H') H

/-- `operator->() const` (lines 247-253): the result and the handle after
the call. -/
def arrow (h : mptr) : Except Exception Ptr × mptr :=
  if h.m_ptr = 0 then
    (.error (Exception.ofCStr "mptr should not contain null pointers"), h)
  else
    (.ok h.m_ptr, h)

/-- `operator*()` (lines 255-261): the reference `*m_ptr` is the address of
its referent. -/
def deref (h : mptr) : Except Exception Ptr × mptr :=
  if h.m_ptr = 0 then
    (.error (Exception.ofCStr "mptr should not contain null pointers"), h)
  else
    (.ok h.m_ptr, h)

/-- `Get()` (lines 263-269). -/
def Get (h : mptr) : Except Exception Ptr × mptr :=
  if h.m_ptr = 0 then
    (.error (Exception.ofCStr "mptr should not contain null pointers"), h)
  else
    (.ok h.m_ptr, h)

/-- `explicit operator bool() const` (lines 286-289): `m_ptr != nullptr`. -/
def toBool (h : mptr) : Bool :=
  decide (h.m_ptr ≠ 0)

/-- `Shared(p...)` (lines 292-296): `mptr<T>(shared<T>(p...))`; the
temporary `shared_ptr` is destroyed after the handle took its copy. -/
def Shared (p : Ptr) (c : Nat) (H : Heap) : mptr × Heap :=
  let t := shared p c H
  let r := ofSptr t.1 t.2
  (r.1, r.2.release t.1.ctrl)

/-- The mode of a handle: Unset when the cached pointer is null, Shared when
it holds a non-null shared reference, Raw otherwise. -/
def mode (h : mptr) : Mode :=
  if h.m_ptr = 0 then Mode.Unset
  else if h.m_sptr.toBool then Mode.Shared
  else Mode.Raw

/-- Cache/owner agreement: a non-null shared reference designates the object
the cached pointer designates. -/
def WellFormed (h : mptr) : Prop :=
  h.m_sptr.toBool = true → h.m_ptr = h.m_sptr.get

instance (h : mptr) : Decidable h.WellFormed := by
  unfold WellFormed; exact inferInstance

/-- The three access operations of a handle. -/
inductive Access where
  | arrow
  | deref
  | Get
  deriving DecidableEq, Repr

/-- One access on a handle: the result and the handle after the call. -/
def access : Access → mptr → Except Exception Ptr × mptr
  | Access.arrow, h => h.arrow
  | Access.deref, h => h.deref
  | Access.Get, h => h.Get

/-- Successive accesses on one handle: the results, oldest first, and the
handle after the last call. -/
def accessSeq : List Access → mptr → List (Except Exception Ptr) × mptr
  | [], h => ([], h)
  | a :: as, h => ((h.access a).1 :: (accessSeq as (h.access a).2).1,
                   (accessSeq as (h.access a).2).2)

end mptr

namespace wmptr

/-- `explicit wmptr(wptr<T> ptr)` (lines 176-179). -/
def ofWptr (w : wptr) : wmptr :=
  { m_wptr := w, m_sptr := sptr.null, m_ptr := 0 }

/-- The member values named by `explicit wmptr(sptr<T> sptr)` (lines
181-184): `m_sptr` is a copy of the argument, hence one more owner.  As
written the constructor cannot be called, its `m_wptr{nullptr}` being
ill-formed; no operation of the program is embedded through it. -/
def ofSptr (s : sptr) (H : Heap) : wmptr × Heap :=
  ({ m_wptr := wptr.null, m_sptr := s, m_ptr := s.get }, H.retain s.ctrl)

/-- The member values named by `explicit wmptr(T* ptr)` (lines 186-189).
As written the constructor cannot be called, its `m_wptr{nullptr}` being
ill-formed; no operation of the program is embedded through it. -/
def ofPtr (p : Ptr) : wmptr :=
  { m_wptr := wptr.null, m_sptr := sptr.null, m_ptr := p }

/-- `~wmptr() = default` (line 169): the member `m_sptr` is destroyed (the
`weak_ptr` member owns nothing). -/
def destroy (w : wmptr) (H : Heap) : Heap :=
  H.release w.m_sptr.ctrl

/-- `Lock()` (lines 192-197).  In the last branch the temporary returned by
`m_wptr.lock()` is destroyed once the handle took its copy. -/
def Lock (w : wmptr) (H : Heap) : mptr × Heap :=
  if w.m_sptr.toBool then mptr.ofSptr w.m_sptr H
  else if w.m_ptr ≠ 0 then (mptr.ofPtr w.m_ptr, H)
  else
    let t := w.m_wptr.lock H
    let r := mptr.ofSptr t.1 t.2
    (r.1, r.2.release t.1.ctrl)

/-- `explicit operator bool()` (lines 200-203):
`m_ptr || (bool)(m_wptr.lock())`; the temporary of `lock()` is destroyed
at once, so the heap is as before. -/
def toBool (w : wmptr) (H : Heap) : Bool :=
  decide (w.m_ptr ≠ 0) || (w.m_wptr.lock H).1.toBool

end wmptr

namespace mptr

/-- `mptr& operator=(const mptr& other) = default` (line 228), for a
destination `dst` and a source `src`: both members are copy-assigned; the
`shared_ptr` assignment first takes a share of the new object and then gives
up the share of the old one. -/
def copyAssign (dst src : mptr) (H : Heap) : mptr × Heap :=
  (src, (H.retain src.m_sptr.ctrl).release dst.m_sptr.ctrl)

/-- `mptr& operator=(mptr&& other) = default` (line 229), for a destination
`dst` and a distinct source `src`: returns the destination and the
moved-from source.  The plain pointer is copied; the `shared_ptr` is
move-assigned, which empties the source's `m_sptr` and gives up the share the
destination held before. -/
def moveAssign (dst src : mptr) (H : Heap) : (mptr × mptr) × Heap :=
  ((src, { m_ptr := src.m_ptr, m_sptr := sptr.null }), H.release dst.m_sptr.ctrl)

end mptr

namespace wmptr

/-- The member values named by `wmptr() = default` (line 167) and the default
member initialisers (lines 162-164).  As written the constructor cannot be
called, the initialiser `m_wptr { nullptr }` being ill-formed. -/
def default : wmptr := {}

/-- `wmptr(const wmptr&) = default` (line 171): the three members are
copied, the `shared_ptr` member gaining an owner. -/
def copy (w : wmptr) (H : Heap) : wmptr × Heap :=
  (w, H.retain w.m_sptr.ctrl)

/-- `wmptr(wmptr&&) = default` (line 170): returns the new handle and the
moved-from source, whose `weak_ptr` and `shared_ptr` members are left empty
and whose plain pointer is as before. -/
def move (w : wmptr) : wmptr × wmptr :=
  (w, { m_wptr := wptr.null, m_sptr := sptr.null, m_ptr := w.m_ptr })

end wmptr

/-- The `mptr` states that the public interface produces: the constructors
(default, from a shared reference, from a plain pointer, upcast), copy and
move construction and assignment (destination and moved-from source),
`Shared()` and `wmptr::Lock()` on any `wmptr`. -/
inductive mptr.Reachable : mptr → Prop where
  | default : mptr.Reachable mptr.default
  | ofSptr (s : sptr) (H : Heap) : mptr.Reachable (mptr.ofSptr s H).1
  | ofPtr (p : Ptr) : mptr.Reachable (mptr.ofPtr p)
  | upcast (off : Nat) (d : mptr) (H : Heap) :
      mptr.Reachable d → mptr.Reachable (mptr.upcast off d H).1
  | copy (h : mptr) (H : Heap) : mptr.Reachable h → mptr.Reachable (mptr.copy h H).1
  | moveDst (h : mptr) : mptr.Reachable h → mptr.Reachable (mptr.move h).1
  | moveSrc (h : mptr) : mptr.Reachable h → mptr.Reachable (mptr.move h).2
  | copyAssign (dst src : mptr) (H : Heap) :
      mptr.Reachable dst → mptr.Reachable src → mptr.Reachable (mptr.copyAssign dst src H).1
  | moveAssignDst (dst src : mptr) (H : Heap) :
      mptr.Reachable dst → mptr.Reachable src →
      mptr.Reachable (mptr.moveAssign dst src H).1.1
  | moveAssignSrc (dst src : mptr) (H : Heap) :
      mptr.Reachable dst → mptr.Reachable src →
      mptr.Reachable (mptr.moveAssign dst src H).1.2
  | Shared (p : Ptr) (c : Nat) (H : Heap) : mptr.Reachable (mptr.Shared p c H).1
  | Lock (w : wmptr) (H : Heap) : mptr.Reachable (w.Lock H).1

/-- The `wmptr` states that its constructors (default, from a weak
reference, from a shared reference, from a plain pointer) and copies
name.  Of the constructors only `wmptr(wptr<T>)` can be called as the source
is written; the states of the other three are kept so that what is proved
of every reachable state does not depend on that. -/
inductive wmptr.Reachable : wmptr → Prop where
  | default : wmptr.Reachable wmptr.default
  | ofWptr (w : wptr) : wmptr.Reachable (wmptr.ofWptr w)
  | ofSptr (s : sptr) (H : Heap) : wmptr.Reachable (wmptr.ofSptr s H).1
  | ofPtr (p : Ptr) : wmptr.Reachable (wmptr.ofPtr p)
  | copy (w : wmptr) (H : Heap) : wmptr.Reachable w → wmptr.Reachable (wmptr.copy w H).1

/-- The `Exception` values that the public constructors produce: from a
message (`char const*`, `std::string&&`), variadic, from a pointer, wrap with
parent (plain and variadic), copy and move; `movedFrom` is the source of a
move construction, whose message is left in an unspecified state `m` and
whose parent is untouched. -/
inductive Exception.Reachable : Exception → Prop where
  | ofCStr (m : String) : Exception.Reachable (Exception.ofCStr m)
  | ofString (m : String) : Exception.Reachable (Exception.ofString m)
  | variadic (α φ : Type) (ins : α → φ → String × φ) (st₀ : φ) (t : α) (ts : List α) :
      Exception.Reachable (Exception.variadic ins st₀ t ts)
  | ofPointer (e : Exception) : Exception.Reachable e →
      Exception.Reachable (Exception.ofPointer e)
  | wrap (p : Exception) (m : String) : Exception.Reachable p →
      Exception.Reachable (Exception.wrap p m)
  | variadicWrap (α φ : Type) (ins : α → φ → String × φ) (st₀ : φ) (p : Exception) (t : α)
      (ts : List α) :
      Exception.Reachable p → Exception.Reachable (Exception.variadicWrap ins st₀ p t ts)
  | copy (e : Exception) : Exception.Reachable e → Exception.Reachable (Exception.copy e)
  | moveCtor (e : Exception) : Exception.Reachable e →
      Exception.Reachable (Exception.moveCtor e)
  | movedFrom (e : Exception) (m : String) : Exception.Reachable e →
      Exception.Reachable (Exception.mk e.m_parent m)

/-! ## Theorems -/

/-! ### Access on a handle -/

theorem mptr.Get_fst_error_iff (h : mptr) (e : Exception) :
    h.Get.1 = Except.error e ↔
      h.m_ptr = 0 ∧ e = Exception.ofCStr "mptr should not contain null pointers" := by
  unfold mptr.Get
  by_cases hp : h.m_ptr = 0
  · simp [hp, eq_comm]
  · simp [hp]

theorem mptr.arrow_fst_error_iff (h : mptr) (e : Exception) :
    h.arrow.1 = Except.error e ↔
      h.m_ptr = 0 ∧ e = Exception.ofCStr "mptr should not contain null pointers" := by
  unfold mptr.arrow
  by_cases hp : h.m_ptr = 0
  · simp [hp, eq_comm]
  · simp [hp]

theorem mptr.deref_fst_error_iff (h : mptr) (e : Exception) :
    h.deref.1 = Except.error e ↔
      h.m_ptr = 0 ∧ e = Exception.ofCStr "mptr should not contain null pointers" := by
  unfold mptr.deref
  by_cases hp : h.m_ptr = 0
  · simp [hp, eq_comm]
  · simp [hp]

theorem mptr.mode_eq_Unset_iff (h : mptr) : h.mode = Mode.Unset ↔ h.m_ptr = 0 := by
  unfold mptr.mode
  by_cases hp : h.m_ptr = 0
  · simp [hp]
  · by_cases hs : h.m_sptr.toBool = true <;> simp [hp, hs]

/-- C1: each access operation (`operator->`, `operator*`, `Get()`) throws
exactly when the handle is Unset, that is when its cached pointer is null;
what it throws is the `Exception` made from the message
"mptr should not contain null pointers", whose `what()` and `Message()` are
that text; the handle after the call is the handle before it; and every
access on a default-constructed handle throws. -/
theorem C1_access_throws_iff_unset (h : mptr) :
    (h.mode = Mode.Unset ↔ h.m_ptr = 0)
    ∧ ((∃ e, h.arrow.1 = Except.error e) ↔ h.mode = Mode.Unset)
    ∧ ((∃ e, h.deref.1 = Except.error e) ↔ h.mode = Mode.Unset)
    ∧ ((∃ e, h.Get.1 = Except.error e) ↔ h.mode = Mode.Unset)
    ∧ (∀ e, h.arrow.1 = Except.error e ∨ h.deref.1 = Except.error e ∨ h.Get.1 = Except.error e →
        e.what = "mptr should not contain null pointers"
        ∧ e.Message = "mptr should not contain null pointers")
    ∧ h.arrow.2 = h ∧ h.deref.2 = h ∧ h.Get.2 = h
    ∧ (∃ e, mptr.default.arrow.1 = Except.error e)
    ∧ (∃ e, mptr.default.deref.1 = Except.error e)
    ∧ (∃ e, mptr.default.Get.1 = Except.error e) := by
  refine ⟨mptr.mode_eq_Unset_iff h, ?_, ?_, ?_, ?_, ?_, ?_, ?_, ?_, ?_, ?_⟩
  · rw [mptr.mode_eq_Unset_iff]
    constructor
    · rintro ⟨e, he⟩
      exact ((mptr.arrow_fst_error_iff h e).1 he).1
    · intro hp
      exact ⟨_, (mptr.arrow_fst_error_iff h _).2 ⟨hp, rfl⟩⟩
  · rw [mptr.mode_eq_Unset_iff]
    constructor
    · rintro ⟨e, he⟩
      exact ((mptr.deref_fst_error_iff h e).1 he).1
    · intro hp
      exact ⟨_, (mptr.deref_fst_error_iff h _).2 ⟨hp, rfl⟩⟩
  · rw [mptr.mode_eq_Unset_iff]
    constructor
    · rintro ⟨e, he⟩
      exact ((mptr.Get_fst_error_iff h e).1 he).1
    · intro hp
      exact ⟨_, (mptr.Get_fst_error_iff h _).2 ⟨hp, rfl⟩⟩
  · intro e he
    have he' : e = Exception.ofCStr "mptr should not contain null pointers" := by
      rcases he with he | he | he
      · exact ((mptr.arrow_fst_error_iff h e).1 he).2
      · exact ((mptr.deref_fst_error_iff h e).1 he).2
      · exact ((mptr.Get_fst_error_iff h e).1 he).2
    subst he'
    exact ⟨rfl, rfl⟩
  · unfold mptr.arrow; split <;> rfl
  · unfold mptr.deref; split <;> rfl
  · unfold mptr.Get; split <;> rfl
  · exact ⟨_, rfl⟩
  · exact ⟨_, rfl⟩
  · exact ⟨_, rfl⟩

theorem mptr.access_of_ne_zero (a : mptr.Access) (h : mptr) (hp : h.m_ptr ≠ 0) :
    h.access a = (Except.ok h.m_ptr, h) := by
  cases a <;> simp [mptr.access, mptr.arrow, mptr.deref, mptr.Get, hp]

theorem mptr.accessSeq_of_ne_zero (as : List mptr.Access) (h : mptr) (hp : h.m_ptr ≠ 0) :
    mptr.accessSeq as h = (as.map (fun _ => Except.ok h.m_ptr), h) := by
  induction as with
  | nil => rfl
  | cons a as ih => simp [mptr.accessSeq, mptr.access_of_ne_zero a h hp, ih]

/-- C2: a handle made from a non-null plain pointer `p` returns `p` from
`Get()` and `operator->`; a handle made from a non-null shared reference `s`
returns `s.get()`; and any sequence of accesses on such a handle returns that
same reference at every call and ends with the handle in its initial state. -/
theorem C2_access_returns_reference (p : Ptr) (s : sptr) (H : Heap) (as : List mptr.Access)
    (hp : p ≠ 0) (hs : s.toBool = true) :
    (mptr.ofPtr p).Get.1 = Except.ok p
    ∧ (mptr.ofPtr p).arrow.1 = Except.ok p
    ∧ (mptr.ofSptr s H).1.Get.1 = Except.ok s.get
    ∧ (mptr.ofSptr s H).1.arrow.1 = Except.ok s.get
    ∧ mptr.accessSeq as (mptr.ofPtr p) = (as.map (fun _ => Except.ok p), mptr.ofPtr p)
    ∧ mptr.accessSeq as (mptr.ofSptr s H).1
        = (as.map (fun _ => Except.ok s.get), (mptr.ofSptr s H).1) := by
  have hp' : (mptr.ofPtr p).m_ptr ≠ 0 := hp
  have hs' : (mptr.ofSptr s H).1.m_ptr ≠ 0 := by
    simpa [mptr.ofSptr, sptr.get, sptr.toBool] using hs
  refine ⟨?_, ?_, ?_, ?_, ?_, ?_⟩
  · exact congrArg Prod.fst (mptr.access_of_ne_zero mptr.Access.Get _ hp')
  · exact congrArg Prod.fst (mptr.access_of_ne_zero mptr.Access.arrow _ hp')
  · exact congrArg Prod.fst (mptr.access_of_ne_zero mptr.Access.Get _ hs')
  · exact congrArg Prod.fst (mptr.access_of_ne_zero mptr.Access.arrow _ hs')
  · exact mptr.accessSeq_of_ne_zero as _ hp'
  · exact mptr.accessSeq_of_ne_zero as _ hs'

/-- Witness for C2: the pointer `7`, a shared reference to the object at `9`,
and three accesses in a row. -/
theorem C2_access_returns_reference_witness :
    (mptr.ofPtr 7).Get.1 = Except.ok 7
    ∧ (mptr.ofSptr ⟨9, some 1⟩ Heap.empty).1.arrow.1 = Except.ok 9
    ∧ mptr.accessSeq [mptr.Access.Get, mptr.Access.arrow, mptr.Access.deref] (mptr.ofPtr 7)
        = ([Except.ok 7, Except.ok 7, Except.ok 7], mptr.ofPtr 7) :=
  have h := C2_access_returns_reference 7 ⟨9, some 1⟩ Heap.empty
    [mptr.Access.Get, mptr.Access.arrow, mptr.Access.deref] (by decide) (by decide)
  ⟨h.1, h.2.2.2.1, h.2.2.2.2.1⟩

/-! ### Error chains -/

/-- C4, as stated, fails: the error `Exception(Exception("cause"), "context")`
has a parent and its chain is "context", "cause", but its copy has no parent
and a chain of the single message "context". -/
theorem C4_copy_drops_parent :
    (Exception.wrap (Exception.ofCStr "cause") "context").HasParent = true
    ∧ (Exception.wrap (Exception.ofCStr "cause") "context").chainMessages
        = ["context", "cause"]
    ∧ (Exception.copy (Exception.wrap (Exception.ofCStr "cause") "context")).HasParent = false
    ∧ (Exception.copy (Exception.wrap (Exception.ofCStr "cause") "context")).chainMessages
        = ["context"] := by
  refine ⟨rfl, rfl, rfl, rfl⟩

/-- C4, amended: the copy constructor copies the own message only.  For
every error `e`, with a parent or without, the copy has no parent
(`HasParent()` false, `Parent()` null); its stored own message is the stored
own message of `e`, so its `what()` is `e.what()`; its `Message()` is that
stored message; and walking `Parent()` from it meets that single message,
which is the first message of the chain of `e`. -/
theorem C4_copy_own_message_only (e : Exception) :
    (Exception.copy e).HasParent = false
    ∧ (Exception.copy e).Parent = none
    ∧ (Exception.copy e).m_message = e.m_message
    ∧ (Exception.copy e).what = e.what
    ∧ (Exception.copy e).Message = e.m_message
    ∧ (Exception.copy e).chainMessages = [e.m_message]
    ∧ (Exception.copy e).chainMessages = e.chainMessages.take 1 := by
  refine ⟨rfl, rfl, rfl, rfl, rfl, rfl, ?_⟩
  match e with
  | Exception.mk none m => rfl
  | Exception.mk (some p) m => rfl

theorem Heap.release_retain (H : Heap) (x : Option Nat) : (H.retain x).release x = H := by
  cases x with
  | none => rfl
  | some c =>
    funext k
    by_cases hk : k = c <;> simp [Heap.retain, Heap.release, hk]

theorem Heap.retain_some_self (H : Heap) (c : Nat) : (H.retain (some c)) c = H c + 1 := by
  simp [Heap.retain]

theorem Heap.retain_some_other (H : Heap) (c k : Nat) (hk : k ≠ c) :
    (H.retain (some c)) k = H k := by
  simp [Heap.retain, hk]

theorem mptr.destroy_ge (h : mptr) (H : Heap) (c : Nat) : H c - 1 ≤ (h.destroy H) c := by
  unfold mptr.destroy
  cases h.m_sptr.ctrl with
  | none => exact Nat.sub_le _ _
  | some k =>
    by_cases hk : c = k
    · simp [Heap.release, hk]
    · simp [Heap.release, hk]

theorem mptr.destroyAll_ge (c : Nat) (hs : List mptr) :
    ∀ H : Heap, H c - hs.length ≤ (mptr.destroyAll hs H) c := by
  induction hs with
  | nil => intro H; simp [mptr.destroyAll]
  | cons h hs ih =>
    intro H
    have h1 := mptr.destroy_ge h H c
    have h2 := ih (h.destroy H)
    simp only [mptr.destroyAll, List.foldl_cons, List.length_cons] at h2 ⊢
    omega

theorem wmptr.Lock_ofSptr (w : wmptr) (H : Heap) (hs : w.m_sptr.toBool = true) :
    w.Lock H = (({ m_ptr := w.m_sptr.ptr, m_sptr := w.m_sptr } : mptr), H.retain w.m_sptr.ctrl) := by
  simp [wmptr.Lock, hs, mptr.ofSptr, sptr.get]

theorem mptr.mode_Shared_of (h : mptr) (hp : h.m_ptr ≠ 0) (hs : h.m_sptr.toBool = true) :
    h.mode = Mode.Shared := by
  simp [mptr.mode, hp, hs]

theorem mptr.Get_of_ne_zero (h : mptr) (hp : h.m_ptr ≠ 0) : h.Get.1 = Except.ok h.m_ptr := by
  simp [mptr.Get, hp]

/-- C7: for a `wmptr` constructed from a weak reference `wp`.  If the
pointee still has a shared owner (the control block `c` of `wp` has a
positive use count, and `wp` points to an object), `Lock()` returns a
Shared-mode, non-Unset handle whose `Get()` is the pointee and which co-owns
it: the use count of `c` is one higher and no other count moves.  If `wp`
is expired, `Lock()` returns an Unset handle: `operator bool` is false and
every access throws; the heap is as before.  `Lock` is a total function with
no error result: it never throws. -/
theorem C7_lock_of_weak_reference (wp : wptr) (H : Heap) :
    (∀ c : Nat, wp.ctrl = some c → 0 < H c → wp.ptr ≠ 0 →
        ((wmptr.ofWptr wp).Lock H).1.mode = Mode.Shared
        ∧ ((wmptr.ofWptr wp).Lock H).1.toBool = true
        ∧ ((wmptr.ofWptr wp).Lock H).1.Get.1 = Except.ok wp.ptr
        ∧ ((wmptr.ofWptr wp).Lock H).1.m_sptr.ctrl = some c
        ∧ ((wmptr.ofWptr wp).Lock H).2 c = H c + 1
        ∧ (∀ k : Nat, k ≠ c → ((wmptr.ofWptr wp).Lock H).2 k = H k))
    ∧ (wp.expired H = true →
        ((wmptr.ofWptr wp).Lock H).1.mode = Mode.Unset
        ∧ ((wmptr.ofWptr wp).Lock H).1.toBool = false
        ∧ (∀ a : mptr.Access, ∃ e, (((wmptr.ofWptr wp).Lock H).1.access a).1 = Except.error e)
        ∧ ((wmptr.ofWptr wp).Lock H).2 = H) := by
  constructor
  · intro c hc hpos hp
    have hne : wp.expired H = false := by
      simp [wptr.expired, Heap.use_count, hc]
      omega
    have hl : (wmptr.ofWptr wp).Lock H
        = (({ m_ptr := wp.ptr, m_sptr := ⟨wp.ptr, some c⟩ } : mptr), H.retain (some c)) := by
      simp [wmptr.Lock, wmptr.ofWptr, sptr.null, sptr.toBool, wptr.lock, hne, mptr.ofSptr,
        sptr.get, hc, Heap.release_retain]
    rw [hl]
    refine ⟨?_, ?_, ?_, rfl, Heap.retain_some_self H c, ?_⟩
    · exact mptr.mode_Shared_of _ hp (by simpa [sptr.toBool] using hp)
    · simpa [mptr.toBool] using hp
    · exact mptr.Get_of_ne_zero _ hp
    · intro k hk
      exact Heap.retain_some_other H c k hk
  · intro he
    have hl : (wmptr.ofWptr wp).Lock H = (({ m_ptr := 0, m_sptr := sptr.null } : mptr), H) := by
      simp [wmptr.Lock, wmptr.ofWptr, sptr.null, sptr.toBool, wptr.lock, he, mptr.ofSptr,
        sptr.get, Heap.retain, Heap.release]
    rw [hl]
    refine ⟨rfl, rfl, ?_, rfl⟩
    intro a
    cases a <;> exact ⟨_, rfl⟩

/-- Witness for C7: the weak reference to the object at `100` under control
block `1`, first while one owner is left, then with none. -/
theorem C7_lock_of_weak_reference_witness :
    ((wmptr.ofWptr ⟨100, some 1⟩).Lock (Heap.empty.retain (some 1))).1.mode = Mode.Shared
    ∧ ((wmptr.ofWptr ⟨100, some 1⟩).Lock (Heap.empty.retain (some 1))).2 1 = 2
    ∧ ((wmptr.ofWptr ⟨100, some 1⟩).Lock Heap.empty).1.mode = Mode.Unset :=
  ⟨((C7_lock_of_weak_reference ⟨100, some 1⟩ (Heap.empty.retain (some 1))).1 1 rfl
      (by decide) (by decide)).1,
    ((C7_lock_of_weak_reference ⟨100, some 1⟩ (Heap.empty.retain (some 1))).1 1 rfl
      (by decide) (by decide)).2.2.2.2.1,
    ((C7_lock_of_weak_reference ⟨100, some 1⟩ Heap.empty).2 rfl).1⟩

/-- A weak handle made from a weak reference, by the one `wmptr` constructor
that can be called (lines 176-179): its boolean conversion (lines 200-203)
is the truth value of the `lock()` result, on every heap; when the weak
reference points to an object, it is true exactly when the weak reference is
not expired. -/
theorem wmptr.toBool_ofWptr (wp : wptr) (H : Heap) :
    (wmptr.ofWptr wp).toBool H = (wp.lock H).1.toBool
    ∧ (wp.ptr ≠ 0 → ((wmptr.ofWptr wp).toBool H = true ↔ wp.expired H = false)) := by
  have hw : (wmptr.ofWptr wp).toBool H = (wp.lock H).1.toBool := by
    simp [wmptr.toBool, wmptr.ofWptr]
  refine ⟨hw, ?_⟩
  intro hq
  rw [hw]
  unfold wptr.lock
  by_cases he : wp.expired H = true
  · simp [he, sptr.null, sptr.toBool]
  · simp [he, sptr.toBool, hq]

theorem static_upcast_eq_zero_iff (off : Nat) (p : Ptr) : static_upcast off p = 0 ↔ p = 0 := by
  unfold static_upcast
  by_cases hp : p = 0
  · simp [hp]
  · simp [hp]

theorem mptr.upcast_m_ptr (off : Nat) (d : mptr) (H : Heap) :
    (mptr.upcast off d H).1.m_ptr = static_upcast off d.m_ptr := by
  unfold mptr.upcast
  split <;> rfl

theorem mptr.upcast_m_sptr_toBool (off : Nat) (d : mptr) (H : Heap) :
    (mptr.upcast off d H).1.m_sptr.toBool = d.m_sptr.toBool := by
  unfold mptr.upcast
  by_cases hs : d.m_sptr.toBool = true
  · have hp : d.m_sptr.ptr ≠ 0 := by simpa [sptr.toBool] using hs
    rw [if_pos hs, hs]
    simp [sptr.toBool, static_upcast_eq_zero_iff, hp]
  · have hs' : d.m_sptr.toBool = false := by simpa using hs
    rw [if_neg hs, hs']
    rfl

/-- C10: for every handle `d` to a derived type and the handle
`b = mptr<Base>(d)`, where the base subobject lies `off` bytes into the
object.  `b` has the mode of `d` (Unset, Raw or Shared); `b` is Unset exactly
when `d` is; when `d.Get()` returns `p`, `b.Get()` returns the base pointer
to the same object, `static_upcast off p`, which is `p` itself when `off`
is 0, and when `d.Get()` throws so does `b.Get()`.  When `d` is Shared with
control block `c`, `b` is one more owner of `c`, and after `d` and all other
handles that owned the object (`others`; together they held at most the use
count `H c` there was before the upcast) are destroyed, the use count is
still at least 1: the object is alive while `b` exists. -/
theorem C10_upcast_preserves_mode_and_ownership (off : Nat) (d : mptr) (H : Heap) :
    (mptr.upcast off d H).1.mode = d.mode
    ∧ ((mptr.upcast off d H).1.toBool = d.toBool)
    ∧ (∀ p : Ptr, d.Get.1 = Except.ok p →
        (mptr.upcast off d H).1.Get.1 = Except.ok (static_upcast off p))
    ∧ (∀ p : Ptr, d.Get.1 = Except.ok p → (mptr.upcast 0 d H).1.Get.1 = Except.ok p)
    ∧ (∀ e : Exception, d.Get.1 = Except.error e →
        (mptr.upcast off d H).1.Get.1 = Except.error e)
    ∧ (∀ (c : Nat) (others : List mptr), d.mode = Mode.Shared → d.m_sptr.ctrl = some c →
        (d :: others).length ≤ H c →
        (mptr.upcast off d H).1.m_sptr.ctrl = some c
        ∧ (mptr.upcast off d H).2 c = H c + 1
        ∧ 1 ≤ (mptr.destroyAll (d :: others) (mptr.upcast off d H).2) c) := by
  have hmode : (mptr.upcast off d H).1.mode = d.mode := by
    simp only [mptr.mode, mptr.upcast_m_ptr, mptr.upcast_m_sptr_toBool,
      static_upcast_eq_zero_iff]
  have hget : ∀ (o : Nat) (p : Ptr), d.Get.1 = Except.ok p →
      (mptr.upcast o d H).1.Get.1 = Except.ok (static_upcast o p) := by
    intro o p hp
    have hne : d.m_ptr ≠ 0 := by
      intro h0
      simp [mptr.Get, h0] at hp
    have hpe : d.m_ptr = p := by
      simpa [mptr.Get, hne] using hp
    have hb : (mptr.upcast o d H).1.m_ptr ≠ 0 := by
      rw [mptr.upcast_m_ptr]
      exact fun h0 => hne ((static_upcast_eq_zero_iff o _).1 h0)
    rw [mptr.Get_of_ne_zero _ hb, mptr.upcast_m_ptr, hpe]
  refine ⟨hmode, ?_, hget off, ?_, ?_, ?_⟩
  · simp only [mptr.toBool, mptr.upcast_m_ptr, ne_eq, static_upcast_eq_zero_iff]
  · intro p hp
    have := hget 0 p hp
    have hne : p ≠ 0 := by
      intro h0
      subst h0
      by_cases hz : d.m_ptr = 0 <;> simp [mptr.Get, hz] at hp
    simpa [static_upcast, hne] using this
  · intro e he
    have h0 := ((mptr.Get_fst_error_iff d e).1 he)
    exact (mptr.Get_fst_error_iff _ e).2
      ⟨by rw [mptr.upcast_m_ptr, h0.1]; rfl, h0.2⟩
  · intro c others hsh hc hn
    have hs : d.m_sptr.toBool = true := by
      by_cases hz : d.m_ptr = 0
      · simp [mptr.mode, hz] at hsh
      · by_cases hs : d.m_sptr.toBool = true
        · exact hs
        · simp [mptr.mode, hz, hs] at hsh
    have hu : (mptr.upcast off d H)
        = (({ m_sptr := ⟨static_upcast off d.m_sptr.ptr, some c⟩,
              m_ptr := static_upcast off d.m_ptr } : mptr), H.retain (some c)) := by
      simp [mptr.upcast, hs, hc]
    rw [hu]
    have hge := mptr.destroyAll_ge c (d :: others) (H.retain (some c))
    rw [Heap.retain_some_self] at hge
    have hone : 1 ≤ (mptr.destroyAll (d :: others) (H.retain (some c))) c := by
      generalize (d :: others).length = n at hn hge
      omega
    exact ⟨rfl, Heap.retain_some_self H c, hone⟩

/-- Witness for C10: a Derived-typed handle made by `mptr::Shared`, sole owner
of the object at `100`, upcast to a base at offset 8 and then destroyed. -/
theorem C10_upcast_preserves_mode_and_ownership_witness :
    (mptr.upcast 8 (mptr.Shared 100 1 Heap.empty).1 (mptr.Shared 100 1 Heap.empty).2).1.Get.1
      = Except.ok (static_upcast 8 100)
    ∧ 1 ≤ (mptr.destroyAll [(mptr.Shared 100 1 Heap.empty).1]
        (mptr.upcast 8 (mptr.Shared 100 1 Heap.empty).1 (mptr.Shared 100 1 Heap.empty).2).2) 1 :=
  have h := C10_upcast_preserves_mode_and_ownership 8 (mptr.Shared 100 1 Heap.empty).1
    (mptr.Shared 100 1 Heap.empty).2
  ⟨h.2.2.1 100 rfl, (h.2.2.2.2.2 1 [] rfl rfl (by decide)).2.2⟩

/-! ### Invariants -/

theorem wmptr.Lock_WellFormed (w : wmptr) (H : Heap) : (w.Lock H).1.WellFormed := by
  unfold wmptr.Lock
  by_cases hs : w.m_sptr.toBool = true
  · simp only [hs, if_true]
    intro _
    rfl
  · by_cases hp : w.m_ptr = 0
    · simp only [hs, hp, ne_eq, not_true_eq_false, if_false, Bool.false_eq_true]
      intro _
      rfl
    · simp only [hs, hp, ne_eq, not_false_eq_true, if_true, if_false, Bool.false_eq_true]
      intro hb
      simp [mptr.ofPtr, sptr.null, sptr.toBool] at hb

theorem mptr.upcast_WellFormed (off : Nat) (d : mptr) (H : Heap) (hd : d.WellFormed) :
    (mptr.upcast off d H).1.WellFormed := by
  unfold mptr.upcast
  by_cases hs : d.m_sptr.toBool = true
  · rw [if_pos hs]
    intro _
    have hpe : d.m_ptr = d.m_sptr.ptr := hd hs
    simp [sptr.get, hpe]
  · rw [if_neg hs]
    intro hb
    simp [sptr.null, sptr.toBool] at hb

theorem mptr.WellFormed_of_Reachable (h : mptr) (hr : h.Reachable) : h.WellFormed := by
  induction hr with
  | default => intro hb; simp [mptr.default, sptr.null, sptr.toBool] at hb
  | ofSptr s H => intro _; rfl
  | ofPtr p => intro hb; simp [mptr.ofPtr, sptr.null, sptr.toBool] at hb
  | upcast off d H _ ih => exact mptr.upcast_WellFormed off d H ih
  | copy h H _ ih => exact ih
  | moveDst h _ ih => exact ih
  | moveSrc h _ _ => intro hb; simp [mptr.move, sptr.null, sptr.toBool] at hb
  | copyAssign dst src H _ _ _ ih => exact ih
  | moveAssignDst dst src H _ _ _ ih => exact ih
  | moveAssignSrc dst src H _ _ _ _ =>
    intro hb; simp [mptr.moveAssign, sptr.null, sptr.toBool] at hb
  | Shared p c H => intro _; rfl
  | Lock w H => exact wmptr.Lock_WellFormed w H

/-- C14: in every handle state reachable through the constructors (default,
from a shared reference, from a plain pointer, upcast), copy and move
construction and assignment, `Shared()` and `wmptr::Lock()`: a handle that
is not Unset has a non-null cached pointer, and whenever the shared
reference is non-null the cached pointer is non-null and is the pointer the
shared reference holds. -/
theorem C14_cache_owner_agreement (h : mptr) (hr : h.Reachable) :
    (h.mode ≠ Mode.Unset → h.m_ptr ≠ 0)
    ∧ (h.m_sptr.toBool = true → h.m_ptr ≠ 0 ∧ h.m_ptr = h.m_sptr.get) := by
  constructor
  · intro hm h0
    exact hm ((mptr.mode_eq_Unset_iff h).2 h0)
  · intro hs
    have hpe : h.m_ptr = h.m_sptr.get := mptr.WellFormed_of_Reachable h hr hs
    have hp : h.m_sptr.ptr ≠ 0 := by simpa [sptr.toBool] using hs
    refine ⟨?_, hpe⟩
    rw [hpe]
    exact hp

/-- Witness for C14: the handle made by `Shared()`, upcast to a base at
offset 8, then copied. -/
theorem C14_cache_owner_agreement_witness :
    (mptr.copy (mptr.upcast 8 (mptr.Shared 100 1 Heap.empty).1 Heap.empty).1 Heap.empty).1.m_ptr
        ≠ 0
    ∧ (mptr.copy (mptr.upcast 8 (mptr.Shared 100 1 Heap.empty).1 Heap.empty).1
        Heap.empty).1.m_ptr
      = (mptr.copy (mptr.upcast 8 (mptr.Shared 100 1 Heap.empty).1 Heap.empty).1
        Heap.empty).1.m_sptr.get :=
  (C14_cache_owner_agreement
    (mptr.copy (mptr.upcast 8 (mptr.Shared 100 1 Heap.empty).1 Heap.empty).1 Heap.empty).1
    (mptr.Reachable.copy _ _ (mptr.Reachable.upcast _ _ _
      (mptr.Reachable.Shared 100 1 Heap.empty)))).2 (by decide)

theorem Exception.parent_has_no_parent_of_Reachable (e : Exception) (hr : e.Reachable) :
    ∀ p, e.m_parent = some p → p.m_parent = none := by
  induction hr with
  | ofCStr m => intro p hp; simp [Exception.ofCStr, Exception.m_parent] at hp
  | ofString m => intro p hp; simp [Exception.ofString, Exception.m_parent] at hp
  | variadic α φ ins st₀ t ts =>
    intro p hp; simp [Exception.variadic, Exception.m_parent] at hp
  | ofPointer e _ _ => intro p hp; simp [Exception.ofPointer, Exception.m_parent] at hp
  | wrap q m _ _ =>
    intro p hp
    simp only [Exception.wrap, Exception.m_parent, Option.some.injEq] at hp
    subst hp
    rfl
  | variadicWrap α φ ins st₀ q t ts _ _ =>
    intro p hp
    simp only [Exception.variadicWrap, Exception.m_parent, Option.some.injEq] at hp
    subst hp
    rfl
  | copy e _ _ => intro p hp; simp [Exception.copy, Exception.m_parent] at hp
  | moveCtor e _ _ => intro p hp; simp [Exception.moveCtor, Exception.m_parent] at hp
  | movedFrom e m _ ih => intro p hp; exact ih p hp

/-- C15: for every `Exception` reachable through the public constructors
(message, variadic, from a pointer, wrap with parent, copy, move, and the
source of a move): if it has a parent, that parent has none; its chain depth
is at most 1; and `Message()` is the rendering of its whole stored chain,
the chain's messages separated by single spaces.  Moreover the copy of such
an error has no parent, and the parent owned by a wrap of it has no
parent. -/
theorem C15_chain_depth_at_most_one (e : Exception) (hr : e.Reachable) :
    (∀ p, e.Parent = some p → p.HasParent = false)
    ∧ e.chainDepth ≤ 1
    ∧ e.Message = String.intercalate " " e.chainMessages
    ∧ (Exception.copy e).HasParent = false
    ∧ (∀ (m : String) (p : Exception),
        (Exception.wrap e m).Parent = some p → p.HasParent = false) := by
  have key := Exception.parent_has_no_parent_of_Reachable e hr
  refine ⟨?_, ?_, ?_, rfl, ?_⟩
  · intro p hp
    have := key p hp
    simp [Exception.HasParent, this]
  · match e, key with
    | Exception.mk none m, _ => simp [Exception.chainDepth]
    | Exception.mk (some (Exception.mk none pm)) m, _ => simp [Exception.chainDepth]
    | Exception.mk (some (Exception.mk (some g) pm)) m, k =>
      have := k (Exception.mk (some g) pm) rfl
      simp [Exception.m_parent] at this
  · match e, key with
    | Exception.mk none m, _ => rfl
    | Exception.mk (some (Exception.mk none pm)) m, _ => rfl
    | Exception.mk (some (Exception.mk (some g) pm)) m, k =>
      have := k (Exception.mk (some g) pm) rfl
      simp [Exception.m_parent] at this
  · intro m p hp
    simp only [Exception.wrap, Exception.Parent, Exception.m_parent, Option.some.injEq] at hp
    subst hp
    rfl

/-- Witness for C15: a base error wrapped twice. -/
theorem C15_chain_depth_at_most_one_witness :
    (Exception.wrap (Exception.wrap (Exception.ofCStr "a") "b") "c").chainDepth ≤ 1
    ∧ (Exception.wrap (Exception.wrap (Exception.ofCStr "a") "b") "c").Message
        = String.intercalate " "
            (Exception.wrap (Exception.wrap (Exception.ofCStr "a") "b") "c").chainMessages :=
  have h := C15_chain_depth_at_most_one
    (Exception.wrap (Exception.wrap (Exception.ofCStr "a") "b") "c")
    (Exception.Reachable.wrap _ _ (Exception.Reachable.wrap _ _ (Exception.Reachable.ofCStr "a")))
  ⟨h.2.1, h.2.2.1⟩

theorem wmptr.m_ptr_ne_zero_of_Reachable (w : wmptr) (hr : w.Reachable) :
    w.m_sptr.toBool = true → w.m_ptr ≠ 0 := by
  induction hr with
  | default => intro hb; simp [wmptr.default, sptr.null, sptr.toBool] at hb
  | ofWptr wp => intro hb; simp [wmptr.ofWptr, sptr.null, sptr.toBool] at hb
  | ofSptr s H => intro hb; simpa [wmptr.ofSptr, sptr.toBool, sptr.get] using hb
  | ofPtr p => intro hb; simp [wmptr.ofPtr, sptr.null, sptr.toBool] at hb
  | copy w H _ ih => exact ih

theorem wmptr.toBool_eq_Lock_toBool (w : wmptr) (H : Heap)
    (hw : w.m_sptr.toBool = true → w.m_ptr ≠ 0) : w.toBool H = (w.Lock H).1.toBool := by
  by_cases hs : w.m_sptr.toBool = true
  · have hp : w.m_sptr.ptr ≠ 0 := by simpa [sptr.toBool] using hs
    rw [wmptr.Lock_ofSptr w H hs]
    simp [wmptr.toBool, mptr.toBool, hw hs, hp]
  · by_cases hp : w.m_ptr = 0
    · unfold wmptr.Lock wmptr.toBool
      rw [if_neg hs, if_neg (by simpa using hp)]
      simp [hp, mptr.toBool, mptr.ofSptr, sptr.get, sptr.toBool]
    · unfold wmptr.Lock wmptr.toBool
      rw [if_neg hs, if_pos hp]
      simp [hp, mptr.toBool, mptr.ofPtr]

/-- C16: for every `wmptr` in a state reachable through its constructors and
copies, and on one and the same heap, the boolean conversion is true exactly
when `Lock()` yields a non-Unset handle: a handle whose `operator bool` is
true, whose mode is not Unset and whose `Get()` returns a pointer instead of
throwing. -/
theorem C16_wmptr_bool_agrees_with_lock (w : wmptr) (H : Heap) (hr : w.Reachable) :
    (w.toBool H = true ↔ (w.Lock H).1.toBool = true)
    ∧ (w.toBool H = true ↔ (w.Lock H).1.mode ≠ Mode.Unset)
    ∧ (w.toBool H = true ↔ ∃ p : Ptr, (w.Lock H).1.Get.1 = Except.ok p)
    ∧ (w.toBool H = false ↔ ∃ e : Exception, (w.Lock H).1.Get.1 = Except.error e) := by
  have hb := wmptr.toBool_eq_Lock_toBool w H (wmptr.m_ptr_ne_zero_of_Reachable w hr)
  rw [hb]
  by_cases hp : (w.Lock H).1.m_ptr = 0
  · have hm : (w.Lock H).1.mode = Mode.Unset := (mptr.mode_eq_Unset_iff _).2 hp
    simp [mptr.toBool, hp, hm, mptr.Get]
  · have hm : (w.Lock H).1.mode ≠ Mode.Unset := fun h => hp ((mptr.mode_eq_Unset_iff _).1 h)
    simp [mptr.toBool, hp, hm, mptr.Get]

/-- Witness for C16: a copy of the weak handle made from a weak reference
to the object at `100`, on a heap where the object has one owner. -/
theorem C16_wmptr_bool_agrees_with_lock_witness :
    ((wmptr.copy (wmptr.ofWptr ⟨100, some 1⟩) Heap.empty).1.toBool
        (Heap.empty.retain (some 1)) = true
      ↔ ((wmptr.copy (wmptr.ofWptr ⟨100, some 1⟩) Heap.empty).1.Lock
          (Heap.empty.retain (some 1))).1.toBool = true) :=
  (C16_wmptr_bool_agrees_with_lock
    (wmptr.copy (wmptr.ofWptr ⟨100, some 1⟩) Heap.empty).1 (Heap.empty.retain (some 1))
    (wmptr.Reachable.copy _ _ (wmptr.Reachable.ofWptr ⟨100, some 1⟩))).1

/-! ### Moved-from handles -/

/-- C17: after move-constructing, or move-assigning to `dst`, another handle
from a Shared-mode handle `h`: the moved-from `h` holds no shared reference,
so destroying it leaves every use count as it is; its cached pointer is
unchanged, so its mode is Raw, its `operator bool` is true and its `Get()`
returns the old pointer without throwing; the destination is the former
state of `h`: Shared-mode, with the same shared reference and the same
pointer. -/
theorem C17_moved_from_shared_degrades_to_raw (h dst : mptr) (H : Heap)
    (hm : h.mode = Mode.Shared) :
    ((mptr.move h).2.m_sptr = sptr.null
      ∧ (mptr.move h).2.destroy H = H
      ∧ (mptr.move h).2.m_ptr = h.m_ptr
      ∧ (mptr.move h).2.mode = Mode.Raw
      ∧ (mptr.move h).2.toBool = true
      ∧ (mptr.move h).2.Get.1 = Except.ok h.m_ptr
      ∧ (mptr.move h).1.mode = Mode.Shared
      ∧ (mptr.move h).1.m_sptr = h.m_sptr
      ∧ (mptr.move h).1.Get.1 = Except.ok h.m_ptr)
    ∧ ((mptr.moveAssign dst h H).1.2.m_sptr = sptr.null
      ∧ (mptr.moveAssign dst h H).1.2.destroy H = H
      ∧ (mptr.moveAssign dst h H).1.2.m_ptr = h.m_ptr
      ∧ (mptr.moveAssign dst h H).1.2.mode = Mode.Raw
      ∧ (mptr.moveAssign dst h H).1.2.toBool = true
      ∧ (mptr.moveAssign dst h H).1.2.Get.1 = Except.ok h.m_ptr
      ∧ (mptr.moveAssign dst h H).1.1.mode = Mode.Shared
      ∧ (mptr.moveAssign dst h H).1.1.m_sptr = h.m_sptr
      ∧ (mptr.moveAssign dst h H).1.1.Get.1 = Except.ok h.m_ptr) := by
  have hp : h.m_ptr ≠ 0 := by
    intro h0
    rw [(mptr.mode_eq_Unset_iff h).2 h0] at hm
    exact absurd hm (by decide)
  have hraw : ({ m_ptr := h.m_ptr, m_sptr := sptr.null } : mptr).mode = Mode.Raw := by
    simp [mptr.mode, hp, sptr.null, sptr.toBool]
  have hbool : ({ m_ptr := h.m_ptr, m_sptr := sptr.null } : mptr).toBool = true := by
    simp [mptr.toBool, hp]
  have hget : ({ m_ptr := h.m_ptr, m_sptr := sptr.null } : mptr).Get.1 = Except.ok h.m_ptr :=
    mptr.Get_of_ne_zero _ hp
  exact ⟨⟨rfl, rfl, rfl, hraw, hbool, hget, hm, rfl, mptr.Get_of_ne_zero h hp⟩,
    ⟨rfl, rfl, rfl, hraw, hbool, hget, hm, rfl, mptr.Get_of_ne_zero h hp⟩⟩

/-- Witness for C17: the handle made by `Shared()` is moved from. -/
theorem C17_moved_from_shared_degrades_to_raw_witness :
    (mptr.move (mptr.Shared 100 1 Heap.empty).1).2.mode = Mode.Raw
    ∧ (mptr.move (mptr.Shared 100 1 Heap.empty).1).2.Get.1 = Except.ok 100
    ∧ (mptr.move (mptr.Shared 100 1 Heap.empty).1).1.mode = Mode.Shared
    ∧ (mptr.moveAssign mptr.default (mptr.Shared 100 1 Heap.empty).1
        (mptr.Shared 100 1 Heap.empty).2).1.2.mode = Mode.Raw :=
  have h := C17_moved_from_shared_degrades_to_raw (mptr.Shared 100 1 Heap.empty).1
    mptr.default (mptr.Shared 100 1 Heap.empty).2 rfl
  ⟨h.1.2.2.2.1, h.1.2.2.2.2.2.1, h.1.2.2.2.2.2.2.1, h.2.2.2.2.1⟩

end unstd
